import Mathlib

/-!
Shallow embedding of `src/backend/core/websocket_manager.py` (class
`ConnectionManager`), the real-time delivery relay of the autoclip backend.

Modelling choices, all read off the source:
* Python dicts become association lists over `String` keys; `dinsert`
  models dict assignment (overwrite in place, append when absent),
  `derase` models `del d[k]` (identity when the key is absent, matching
  the `if k in d: del d[k]` guards in `disconnect`), `dlookup` models
  `d[k]` / `d.get(k)`.
* Python sets of strings become lists with set-like `sadd` / `sdiscard`
  (membership is what the code observes).
* An `asyncio.Queue` becomes the list of its queued elements, oldest
  first.  `queue.put` appends; queues are created unbounded
  (`asyncio.Queue()` with no maxsize), so `put` never blocks and never
  evicts.  Queue elements are `Option Msg` because `_send_worker`
  treats a queued `None` as a stop signal.
* An `asyncio.Task` becomes a numeric task id; `MState.next_task` is
  the fresh-id source for `asyncio.create_task`, and
  `MState.tasks_cancelled` records every task on which `disconnect`
  performed `task.cancel(); await task`.
* Messages are opaque payloads (`Msg := Nat`): the relay only ever
  stores and forwards them (`json.dumps` at the transport boundary is
  injective on distinct payloads, so opaque ids are faithful for
  ordering and identity claims).
* The code runs on a single-threaded cooperative event loop; each
  public operation is modelled as an atomic state transformer, and the
  `_send_worker` delivery loop as a drain function run between
  operations.
* `await queue.put(...)` in `send_personal_message` is wrapped in
  `try/except` that logs and awaits `disconnect`; to give that handler
  semantics the put is parametrised by a per-user failure oracle
  `put_fails` (the real unbounded put cannot fail, oracle constantly
  false recovers the exact code path).
-/

/-- Dictionary lookup, modelling `d[k]` / `k in d` on a Python dict. -/
def dlookup {α : Type} : List (String × α) → String → Option α
  | [], _ => none
  | (k, v) :: rest, key => if k = key then some v else dlookup rest key

/-- Dictionary assignment `d[k] = v`: overwrite in place, append when absent. -/
def dinsert {α : Type} : List (String × α) → String → α → List (String × α)
  | [], key, v => [(key, v)]
  | (k, w) :: rest, key, v =>
      if k = key then (k, v) :: rest else (k, w) :: dinsert rest key v

/-- Dictionary deletion `del d[k]`; identity when the key is absent. -/
def derase {α : Type} : List (String × α) → String → List (String × α)
  | [], _ => []
  | (k, v) :: rest, key =>
      if k = key then derase rest key else (k, v) :: derase rest key

/-- Membership test `k in d`. -/
def dcontains {α : Type} (d : List (String × α)) (key : String) : Bool :=
  (dlookup d key).isSome

/-- Mapping a function over every value of the dict, modelling
`for k in d: mutate d[k]` loops. -/
def dmapvals {α : Type} : List (String × α) → (α → α) → List (String × α)
  | [], _ => []
  | (k, v) :: rest, f => (k, f v) :: dmapvals rest f

/-- Updating the value stored under an existing key in place. -/
def dmodify {α : Type} : List (String × α) → String → (α → α) → List (String × α)
  | [], _, _ => []
  | (k, v) :: rest, key, f =>
      if k = key then (k, f v) :: rest else (k, v) :: dmodify rest key f

/-- Key snapshot `list(d.keys())`. -/
def dkeys {α : Type} (d : List (String × α)) : List String :=
  d.map (fun p => p.1)

/-- Python `set.add`. -/
def sadd (s : List String) (x : String) : List String :=
  if x ∈ s then s else s ++ [x]

/-- Python `set.discard`. -/
def sdiscard : List String → String → List String
  | [], _ => []
  | y :: rest, x => if y = x then sdiscard rest x else y :: sdiscard rest x

/-- Opaque message payload (the relay never inspects message contents). -/
abbrev Msg := Nat

/-- The mutable state of a `ConnectionManager` instance: its five dicts
(`active_connections`, `user_subscriptions`, `topic_subscribers`,
`send_queues`, `send_tasks`) plus bookkeeping for delivery-task identity
(`next_task` feeds `asyncio.create_task`, `tasks_cancelled` records tasks
cancelled-and-awaited by `disconnect`). -/
structure MState where
  active_connections : List (String × Nat)
  user_subscriptions : List (String × List String)
  topic_subscribers : List (String × List String)
  send_queues : List (String × List (Option Msg))
  send_tasks : List (String × Nat)
  next_task : Nat
  tasks_cancelled : List Nat

namespace ConnectionManager

/-- The state built by `ConnectionManager.__init__`: five empty dicts. -/
def initState : MState :=
  { active_connections := []
    user_subscriptions := []
    topic_subscribers := []
    send_queues := []
    send_tasks := []
    next_task := 0
    tasks_cancelled := [] }

/-- `connect(websocket, user_id)`: accept the transport (no registry
effect), then overwrite the four per-user entries — registry binding,
empty subscription set, fresh empty queue, fresh `_send_worker` task.
Nothing is done to a previously registered connection for `user_id`. -/
def connect (st : MState) (websocket : Nat) (user_id : String) : MState :=
  { st with
    active_connections := dinsert st.active_connections user_id websocket
    user_subscriptions := dinsert st.user_subscriptions user_id []
    send_queues := dinsert st.send_queues user_id []
    send_tasks := dinsert st.send_tasks user_id st.next_task
    next_task := st.next_task + 1 }

/-- `disconnect(user_id)`: cancel and await the send task when present
(recorded in `tasks_cancelled`), delete the per-user entries when present
(`derase` is the identity on an absent key, matching the `if ... in`
guards), and discard the user from every topic subscriber set. -/
def disconnect (st : MState) (user_id : String) : MState :=
  { active_connections := derase st.active_connections user_id
    user_subscriptions := derase st.user_subscriptions user_id
    topic_subscribers := dmapvals st.topic_subscribers (fun s => sdiscard s user_id)
    send_queues := derase st.send_queues user_id
    send_tasks := derase st.send_tasks user_id
    next_task := st.next_task
    tasks_cancelled :=
      match dlookup st.send_tasks user_id with
      | some task => st.tasks_cancelled ++ [task]
      | none => st.tasks_cancelled }

/-- `send_personal_message(message, user_id)` with the queue put
parametrised by a failure oracle: when `user_id` has a queue, `put`
appends; when the put raises, the handler logs and awaits
`disconnect(user_id)`.  When `user_id` has no queue, the call does
nothing.  The function is total: no exception reaches the caller. -/
def send_personal_message_f (put_fails : String → Bool) (st : MState)
    (message : Msg) (user_id : String) : MState :=
  if dcontains st.send_queues user_id then
    if put_fails user_id then
      disconnect st user_id
    else
      { st with
        send_queues := dmodify st.send_queues user_id (fun q => q ++ [some message]) }
  else st

/-- `send_personal_message` as executed: the put on an unbounded
`asyncio.Queue` returns immediately and never raises. -/
def send_personal_message (st : MState) (message : Msg) (user_id : String) : MState :=
  send_personal_message_f (fun _ => false) st message user_id

/-- `broadcast(message)`: iterate over a snapshot
`list(active_connections.keys())` and call `send_personal_message` for
each user.  `send_personal_message` handles its exceptions internally,
so the surrounding `try/except` never fires and `disconnected_users`
stays empty; no error reaches the caller. -/
def broadcast_f (put_fails : String → Bool) (st : MState) (message : Msg) : MState :=
  (dkeys st.active_connections).foldl
    (fun s u => send_personal_message_f put_fails s message u) st

/-- `broadcast` as executed (infallible queue put). -/
def broadcast (st : MState) (message : Msg) : MState :=
  broadcast_f (fun _ => false) st message

/-- `broadcast_to_topic(message, topic)`: return immediately when the
topic has no subscriber entry; otherwise iterate over a snapshot
`list(topic_subscribers[topic])` and send to each subscriber that is
currently in `active_connections`. -/
def broadcast_to_topic_f (put_fails : String → Bool) (st : MState)
    (message : Msg) (topic : String) : MState :=
  if dcontains st.topic_subscribers topic then
    ((dlookup st.topic_subscribers topic).getD []).foldl
      (fun s u =>
        if dcontains s.active_connections u then
          send_personal_message_f put_fails s message u
        else s) st
  else st

/-- `broadcast_to_topic` as executed (infallible queue put). -/
def broadcast_to_topic (st : MState) (message : Msg) (topic : String) : MState :=
  broadcast_to_topic_f (fun _ => false) st message topic

/-- `subscribe_to_topic(user_id, topic)`: ensure both entries exist,
then add to both sides of the mapping.  No check against
`active_connections` appears anywhere in the method. -/
def subscribe_to_topic (st : MState) (user_id topic : String) : MState :=
  let us :=
    if dcontains st.user_subscriptions user_id then st.user_subscriptions
    else dinsert st.user_subscriptions user_id []
  let us := dmodify us user_id (fun s => sadd s topic)
  let ts :=
    if dcontains st.topic_subscribers topic then st.topic_subscribers
    else dinsert st.topic_subscribers topic []
  let ts := dmodify ts topic (fun s => sadd s user_id)
  { st with user_subscriptions := us, topic_subscribers := ts }

/-- `unsubscribe_from_topic(user_id, topic)`: discard from each side of
the mapping whose entry exists.  As in `subscribe_to_topic`, no check
against `active_connections`. -/
def unsubscribe_from_topic (st : MState) (user_id topic : String) : MState :=
  let us :=
    if dcontains st.user_subscriptions user_id then
      dmodify st.user_subscriptions user_id (fun s => sdiscard s topic)
    else st.user_subscriptions
  let ts :=
    if dcontains st.topic_subscribers topic then
      dmodify st.topic_subscribers topic (fun s => sdiscard s user_id)
    else st.topic_subscribers
  { st with user_subscriptions := us, topic_subscribers := ts }

/-- The `_send_worker` loop on a queue snapshot: repeatedly `get` the
head, break on the `None` stop signal, skip the send when the user is
not in `active_connections`, otherwise `send_text`; on a raised send the
loop logs and breaks.  Returns the messages the transport observed, in
order, and the queue contents left behind. -/
def send_worker_drain (send_ok : Msg → Bool) (active : Bool) :
    List (Option Msg) → List Msg × List (Option Msg)
  | [] => ([], [])
  | none :: rest => ([], rest)
  | some m :: rest =>
      if active then
        if send_ok m then
          let (d, r) := send_worker_drain send_ok active rest
          (m :: d, r)
        else ([], rest)
      else send_worker_drain send_ok active rest

/-- Running `_send_worker(user_id)` until its queue is empty or the loop
breaks, as the effect on the manager state: only the queue contents
change (elements are consumed by `get`); the loop touches no other
field.  When `user_id` has no queue the dict access raises `KeyError`,
caught by the outer handler, and the worker exits with no effect.
Returns the new state and the messages delivered to the transport. -/
def run_send_worker (send_ok : Msg → Bool) (st : MState) (user_id : String) :
    MState × List Msg :=
  match dlookup st.send_queues user_id with
  | none => (st, [])
  | some q =>
      let res := send_worker_drain send_ok (dcontains st.active_connections user_id) q
      ({ st with send_queues := dmodify st.send_queues user_id (fun _ => res.2) },
       res.1)

/-- The set of identities subscribed to `topic`
(`topic_subscribers.get(topic, set())`). -/
def subscribersOf (st : MState) (topic : String) : List String :=
  (dlookup st.topic_subscribers topic).getD []

/-- The set of topics `user_id` is subscribed to
(`user_subscriptions.get(user_id, set())`). -/
def topicsOf (st : MState) (user_id : String) : List String :=
  (dlookup st.user_subscriptions user_id).getD []

/-- Enqueue a sequence of messages for one user, in order, via
`send_personal_message`. -/
def enqueue_all (st : MState) (ms : List Msg) (u : String) : MState :=
  ms.foldl (fun s m => send_personal_message s m u) st

/-- One subscribe or unsubscribe call, for stating invariants over
arbitrary sequences of subscription operations. -/
inductive SubOp where
  | sub (u T : String)
  | unsub (u T : String)

/-- Apply a sequence of subscribe/unsubscribe calls in order. -/
def applySubOps : MState → List SubOp → MState
  | st, [] => st
  | st, SubOp.sub u T :: rest => applySubOps (subscribe_to_topic st u T) rest
  | st, SubOp.unsub u T :: rest => applySubOps (unsubscribe_from_topic st u T) rest

/-- The bidirectional-subscription symmetry invariant of the spec. -/
def SubscriptionSymm (st : MState) : Prop :=
  ∀ u T, u ∈ subscribersOf st T ↔ T ∈ topicsOf st u

end ConnectionManager

namespace ConnectionManager

theorem dlookup_dinsert_self {α : Type} (d : List (String × α)) (k : String) (v : α) :
    dlookup (dinsert d k v) k = some v := by
  induction d with
  | nil => simp [dinsert, dlookup]
  | cons p rest ih =>
      obtain ⟨k0, v0⟩ := p
      by_cases h : k0 = k
      · simp [dinsert, dlookup, h]
      · simp [dinsert, dlookup, h, ih]

theorem dlookup_dinsert_ne {α : Type} (d : List (String × α)) (k k' : String) (v : α)
    (h : k' ≠ k) : dlookup (dinsert d k v) k' = dlookup d k' := by
  have hk : ¬ k = k' := fun hh => h hh.symm
  induction d with
  | nil => simp [dinsert, dlookup, hk]
  | cons p rest ih =>
      obtain ⟨k0, v0⟩ := p
      by_cases h0 : k0 = k
      · subst h0
        simp [dinsert, dlookup, hk]
      · by_cases h1 : k0 = k'
        · simp [dinsert, dlookup, h0, h1, hk, h]
        · simp [dinsert, dlookup, h0, h1, ih]

theorem dlookup_derase_self {α : Type} (d : List (String × α)) (k : String) :
    dlookup (derase d k) k = none := by
  induction d with
  | nil => simp [derase, dlookup]
  | cons p rest ih =>
      obtain ⟨k0, v0⟩ := p
      by_cases h : k0 = k
      · simp [derase, dlookup, h, ih]
      · simp [derase, dlookup, h, ih]

theorem dlookup_derase_ne {α : Type} (d : List (String × α)) (k k' : String)
    (h : k' ≠ k) : dlookup (derase d k) k' = dlookup d k' := by
  have hk : ¬ k = k' := fun hh => h hh.symm
  induction d with
  | nil => simp [derase, dlookup]
  | cons p rest ih =>
      obtain ⟨k0, v0⟩ := p
      by_cases h0 : k0 = k
      · subst h0
        simp [derase, dlookup, hk, ih]
      · by_cases h1 : k0 = k'
        · simp [derase, dlookup, h0, h1, hk, h, ih]
        · simp [derase, dlookup, h0, h1, ih]

theorem dlookup_dmodify_self {α : Type} (d : List (String × α)) (k : String) (f : α → α) :
    dlookup (dmodify d k f) k = (dlookup d k).map f := by
  induction d with
  | nil => simp [dmodify, dlookup]
  | cons p rest ih =>
      obtain ⟨k0, v0⟩ := p
      by_cases h : k0 = k
      · simp [dmodify, dlookup, h]
      · simp [dmodify, dlookup, h, ih]

theorem dlookup_dmodify_ne {α : Type} (d : List (String × α)) (k k' : String) (f : α → α)
    (h : k' ≠ k) : dlookup (dmodify d k f) k' = dlookup d k' := by
  have hk : ¬ k = k' := fun hh => h hh.symm
  induction d with
  | nil => simp [dmodify, dlookup]
  | cons p rest ih =>
      obtain ⟨k0, v0⟩ := p
      by_cases h0 : k0 = k
      · subst h0
        simp [dmodify, dlookup, hk]
      · by_cases h1 : k0 = k'
        · simp [dmodify, dlookup, h0, h1, hk, h]
        · simp [dmodify, dlookup, h0, h1, ih]

theorem dlookup_dmapvals {α : Type} (d : List (String × α)) (f : α → α) (k : String) :
    dlookup (dmapvals d f) k = (dlookup d k).map f := by
  induction d with
  | nil => simp [dmapvals, dlookup]
  | cons p rest ih =>
      obtain ⟨k0, v0⟩ := p
      by_cases h : k0 = k
      · simp [dmapvals, dlookup, h]
      · simp [dmapvals, dlookup, h, ih]

theorem mem_sadd (s : List String) (x y : String) :
    y ∈ sadd s x ↔ y ∈ s ∨ y = x := by
  unfold sadd
  by_cases h : x ∈ s
  · simp only [if_pos h]
    constructor
    · exact Or.inl
    · rintro (hy | rfl)
      · exact hy
      · exact h
  · simp [if_neg h]

theorem mem_sdiscard (s : List String) (x y : String) :
    y ∈ sdiscard s x ↔ y ∈ s ∧ y ≠ x := by
  induction s with
  | nil => simp [sdiscard]
  | cons z rest ih =>
      by_cases h : z = x
      · subst h
        have hred : sdiscard (z :: rest) z = sdiscard rest z := by
          simp [sdiscard]
        rw [hred, ih, List.mem_cons]
        constructor
        · rintro ⟨hy, hne⟩
          exact ⟨Or.inr hy, hne⟩
        · rintro ⟨hz | hy, hne⟩
          · exact absurd hz hne
          · exact ⟨hy, hne⟩
      · have hred : sdiscard (z :: rest) x = z :: sdiscard rest x := by
          simp [sdiscard, h]
        rw [hred, List.mem_cons, List.mem_cons, ih]
        constructor
        · rintro (rfl | ⟨hy, hne⟩)
          · exact ⟨Or.inl rfl, h⟩
          · exact ⟨Or.inr hy, hne⟩
        · rintro ⟨rfl | hy, hne⟩
          · exact Or.inl rfl
          · exact Or.inr ⟨hy, hne⟩

theorem dcontains_iff {α : Type} (d : List (String × α)) (k : String) :
    dcontains d k = true ↔ ∃ v, dlookup d k = some v := by
  simp [dcontains, Option.isSome_iff_exists]

end ConnectionManager

namespace ConnectionManager

theorem disconnect_queue_other (st : MState) (v u : String) (h : u ≠ v) :
    dlookup (disconnect st v).send_queues u = dlookup st.send_queues u := by
  simp [disconnect, dlookup_derase_ne _ _ _ h]

theorem sp_f_queue_other (pf : String → Bool) (st : MState) (m : Msg) (v u : String)
    (h : u ≠ v) :
    dlookup (send_personal_message_f pf st m v).send_queues u =
      dlookup st.send_queues u := by
  unfold send_personal_message_f
  split
  · split
    · exact disconnect_queue_other st v u h
    · simp [dlookup_dmodify_ne _ _ _ _ h]
  · rfl

theorem sp_f_queue_append (pf : String → Bool) (st : MState) (m : Msg) (u : String)
    (q : List (Option Msg)) (hq : dlookup st.send_queues u = some q)
    (hpf : pf u = false) :
    dlookup (send_personal_message_f pf st m u).send_queues u =
      some (q ++ [some m]) := by
  simp [send_personal_message_f, dcontains, hq, hpf, dlookup_dmodify_self]

theorem sp_queue_append (st : MState) (m : Msg) (u : String) (q : List (Option Msg))
    (hq : dlookup st.send_queues u = some q) :
    dlookup (send_personal_message st m u).send_queues u = some (q ++ [some m]) :=
  sp_f_queue_append _ st m u q hq rfl

theorem sp_active (st : MState) (m : Msg) (u : String) :
    (send_personal_message st m u).active_connections = st.active_connections := by
  unfold send_personal_message send_personal_message_f
  split <;> rfl

theorem enqueue_all_active (ms : List Msg) (st : MState) (u : String) :
    (enqueue_all st ms u).active_connections = st.active_connections := by
  induction ms generalizing st with
  | nil => rfl
  | cons m rest ih =>
      rw [enqueue_all, List.foldl_cons]
      rw [show List.foldl (fun s m => send_personal_message s m u) (send_personal_message st m u) rest = enqueue_all (send_personal_message st m u) rest u from rfl]
      rw [ih, sp_active]

theorem enqueue_all_queue (ms : List Msg) (st : MState) (u : String)
    (q : List (Option Msg)) (hq : dlookup st.send_queues u = some q) :
    dlookup (enqueue_all st ms u).send_queues u = some (q ++ ms.map some) := by
  induction ms generalizing st q with
  | nil => simpa [enqueue_all] using hq
  | cons m rest ih =>
      have h1 := sp_queue_append st m u q hq
      have h2 := ih (send_personal_message st m u) (q ++ [some m]) h1
      rw [enqueue_all, List.foldl_cons]
      rw [show List.foldl (fun s m => send_personal_message s m u) (send_personal_message st m u) rest = enqueue_all (send_personal_message st m u) rest u from rfl]
      rw [h2]
      simp

theorem drain_all_ok (ms : List Msg) :
    send_worker_drain (fun _ => true) true (ms.map some) = (ms, []) := by
  induction ms with
  | nil => rfl
  | cons m rest ih => simp [send_worker_drain, ih]

theorem drain_until_failure (send_ok : Msg → Bool) (q1 : List Msg) (m : Msg)
    (q2 : List (Option Msg)) (hok : ∀ x ∈ q1, send_ok x = true)
    (hm : send_ok m = false) :
    send_worker_drain send_ok true (q1.map some ++ some m :: q2) = (q1, q2) := by
  induction q1 with
  | nil => simp [send_worker_drain, hm]
  | cons x rest ih =>
      have hx : send_ok x = true := hok x (List.mem_cons_self x rest)
      have hrest : ∀ y ∈ rest, send_ok y = true :=
        fun y hy => hok y (List.mem_cons_of_mem x hy)
      simp [send_worker_drain, hx, ih hrest]

theorem run_worker_registry (send_ok : Msg → Bool) (st : MState) (u : String) :
    (run_send_worker send_ok st u).1.active_connections = st.active_connections ∧
    (run_send_worker send_ok st u).1.send_tasks = st.send_tasks ∧
    (run_send_worker send_ok st u).1.tasks_cancelled = st.tasks_cancelled ∧
    (run_send_worker send_ok st u).1.user_subscriptions = st.user_subscriptions ∧
    (run_send_worker send_ok st u).1.topic_subscribers = st.topic_subscribers := by
  unfold run_send_worker
  split <;> simp

end ConnectionManager

namespace ConnectionManager

theorem dlookup_ensure_modify {α : Type} (d : List (String × α)) (k : String)
    (dflt : α) (f : α → α) (k' : String) :
    dlookup (dmodify (if dcontains d k then d else dinsert d k dflt) k f) k' =
      if k' = k then some (f ((dlookup d k).getD dflt)) else dlookup d k' := by
  by_cases hk : k' = k
  · subst hk
    cases hd : dlookup d k' with
    | none =>
        have hc : dcontains d k' = false := by simp [dcontains, hd]
        simp [hc, dlookup_dmodify_self, dlookup_dinsert_self, hd]
    | some v =>
        have hc : dcontains d k' = true := by simp [dcontains, hd]
        simp [hc, dlookup_dmodify_self, hd]
  · cases hc : dcontains d k with
    | false =>
        simp [hc, hk, dlookup_dmodify_ne _ _ _ _ hk, dlookup_dinsert_ne _ _ _ _ hk]
    | true =>
        simp [hc, hk, dlookup_dmodify_ne _ _ _ _ hk]

theorem dlookup_modify_if_present {α : Type} (d : List (String × α)) (k : String)
    (f : α → α) (k' : String) :
    dlookup (if dcontains d k then dmodify d k f else d) k' =
      if k' = k then (dlookup d k).map f else dlookup d k' := by
  by_cases hk : k' = k
  · subst hk
    cases hd : dlookup d k' with
    | none =>
        have hc : dcontains d k' = false := by simp [dcontains, hd]
        simp [hc, hd]
    | some v =>
        have hc : dcontains d k' = true := by simp [dcontains, hd]
        simp [hc, dlookup_dmodify_self, hd]
  · cases hc : dcontains d k with
    | false => simp [hc, hk]
    | true => simp [hc, hk, dlookup_dmodify_ne _ _ _ _ hk]

theorem subscribersOf_subscribe (st : MState) (u0 T0 T : String) :
    subscribersOf (subscribe_to_topic st u0 T0) T =
      if T = T0 then sadd (subscribersOf st T0) u0 else subscribersOf st T := by
  by_cases hT : T = T0 <;>
    simp [subscribe_to_topic, subscribersOf, dlookup_ensure_modify, hT]

theorem topicsOf_subscribe (st : MState) (u0 T0 u : String) :
    topicsOf (subscribe_to_topic st u0 T0) u =
      if u = u0 then sadd (topicsOf st u0) T0 else topicsOf st u := by
  by_cases hu : u = u0 <;>
    simp [subscribe_to_topic, topicsOf, dlookup_ensure_modify, hu]

theorem subscribersOf_unsubscribe (st : MState) (u0 T0 T : String) :
    subscribersOf (unsubscribe_from_topic st u0 T0) T =
      if T = T0 then sdiscard (subscribersOf st T0) u0 else subscribersOf st T := by
  by_cases hT : T = T0
  · subst hT
    cases hd : dlookup st.topic_subscribers T with
    | none =>
        simp [unsubscribe_from_topic, subscribersOf, dlookup_modify_if_present, hd,
          sdiscard]
    | some s =>
        simp [unsubscribe_from_topic, subscribersOf, dlookup_modify_if_present, hd]
  · simp [unsubscribe_from_topic, subscribersOf, dlookup_modify_if_present, hT]

theorem topicsOf_unsubscribe (st : MState) (u0 T0 u : String) :
    topicsOf (unsubscribe_from_topic st u0 T0) u =
      if u = u0 then sdiscard (topicsOf st u0) T0 else topicsOf st u := by
  by_cases hu : u = u0
  · subst hu
    cases hd : dlookup st.user_subscriptions u with
    | none =>
        simp [unsubscribe_from_topic, topicsOf, dlookup_modify_if_present, hd, sdiscard]
    | some s =>
        simp [unsubscribe_from_topic, topicsOf, dlookup_modify_if_present, hd]
  · simp [unsubscribe_from_topic, topicsOf, dlookup_modify_if_present, hu]

theorem symm_subscribe (st : MState) (u0 T0 : String) (h : SubscriptionSymm st) :
    SubscriptionSymm (subscribe_to_topic st u0 T0) := by
  intro u T
  rw [subscribersOf_subscribe, topicsOf_subscribe]
  by_cases hu : u = u0
  · subst hu
    by_cases hT : T = T0
    · subst hT
      simp [mem_sadd]
    · simp [hT, mem_sadd, h u T]
  · by_cases hT : T = T0
    · subst hT
      simp [hu, mem_sadd, h u T]
    · simp [hu, hT, h u T]

theorem symm_unsubscribe (st : MState) (u0 T0 : String) (h : SubscriptionSymm st) :
    SubscriptionSymm (unsubscribe_from_topic st u0 T0) := by
  intro u T
  rw [subscribersOf_unsubscribe, topicsOf_unsubscribe]
  by_cases hu : u = u0
  · subst hu
    by_cases hT : T = T0
    · subst hT
      simp [mem_sdiscard]
    · simp [hT, mem_sdiscard, h u T]
  · by_cases hT : T = T0
    · subst hT
      simp [hu, mem_sdiscard, h u T]
    · simp [hu, hT, h u T]

end ConnectionManager

namespace ConnectionManager

theorem foldl_sp_queue_notmem (pf : String → Bool) (m : Msg) (u : String)
    (l : List String) (st : MState) (h : u ∉ l) :
    dlookup (l.foldl (fun s v => send_personal_message_f pf s m v) st).send_queues u =
      dlookup st.send_queues u := by
  induction l generalizing st with
  | nil => rfl
  | cons v rest ih =>
      have hv : u ≠ v := fun hh => h (by rw [hh]; exact List.mem_cons_self v rest)
      have hrest : u ∉ rest := fun hh => h (List.mem_cons_of_mem v hh)
      rw [List.foldl_cons, ih (send_personal_message_f pf st m v) hrest,
        sp_f_queue_other pf st m v u hv]

theorem foldl_sp_queue_mem (pf : String → Bool) (m : Msg) (u : String)
    (l : List String) (st : MState) (q : List (Option Msg))
    (hnd : l.Nodup) (hu : u ∈ l) (hq : dlookup st.send_queues u = some q)
    (hpf : pf u = false) :
    dlookup (l.foldl (fun s v => send_personal_message_f pf s m v) st).send_queues u =
      some (q ++ [some m]) := by
  induction l generalizing st q with
  | nil => cases hu
  | cons v rest ih =>
      rcases List.mem_cons.mp hu with rfl | hmem
      · have hnotin : u ∉ rest := (List.nodup_cons.mp hnd).1
        rw [List.foldl_cons, foldl_sp_queue_notmem pf m u rest _ hnotin]
        exact sp_f_queue_append pf st m u q hq hpf
      · have hv : u ≠ v :=
          fun hh => absurd (hh ▸ hmem) (List.nodup_cons.mp hnd).1
        have hq' : dlookup (send_personal_message_f pf st m v).send_queues u = some q := by
          rw [sp_f_queue_other pf st m v u hv]
          exact hq
        rw [List.foldl_cons]
        apply ih <;> first
          | exact (List.nodup_cons.mp hnd).2
          | exact hmem
          | exact hq'

theorem foldl_topic_queue_notmem (pf : String → Bool) (m : Msg) (u : String)
    (l : List String) (st : MState) (h : u ∉ l) :
    dlookup (l.foldl (fun s v =>
        if dcontains s.active_connections v then send_personal_message_f pf s m v
        else s) st).send_queues u =
      dlookup st.send_queues u := by
  induction l generalizing st with
  | nil => rfl
  | cons v rest ih =>
      have hv : u ≠ v := fun hh => h (by rw [hh]; exact List.mem_cons_self v rest)
      have hrest : u ∉ rest := fun hh => h (List.mem_cons_of_mem v hh)
      rw [List.foldl_cons, ih _ hrest]
      cases hc : dcontains st.active_connections v with
      | false => simp [hc]
      | true => simp [hc, sp_f_queue_other pf st m v u hv]

end ConnectionManager

namespace ConnectionManager

/-- C1, counterexample: connecting "u" twice (transports 1 then 2) does not
disconnect the first connection — no delivery task is ever cancelled
(`tasks_cancelled` stays empty) even though the registry now runs task 1
for "u"; task 0 has simply been dropped from `send_tasks` without
termination, contradicting the claim that `connect` first disconnects the
old connection. -/
theorem C1_counterexample :
    (connect (connect initState 1 "u") 2 "u").tasks_cancelled = [] ∧
    dlookup (connect (connect initState 1 "u") 2 "u").send_tasks "u" = some 1 ∧
    dlookup (connect (connect initState 1 "u") 2 "u").active_connections "u" = some 2 := by
  decide

/-- C1, amended: calling `connect(u, t2)` while `u` already has an Active
connection with transport `t1` leaves exactly one registry binding for
`u`, bound to `t2`, with a fresh empty mailbox and a fresh delivery task;
but the old connection is not disconnected first: the old transport is
not closed, the old mailbox is discarded by overwriting without being
drained, and the old delivery task is not cancelled (`tasks_cancelled`
is unchanged), so the old delivery loop is not terminated. -/
theorem C1_reconnect_overwrites (st : MState) (u : String) (t1 t2 i : Nat)
    (hact : dlookup st.active_connections u = some t1)
    (htask : dlookup st.send_tasks u = some i) :
    dlookup (connect st t2 u).active_connections u = some t2 ∧
    dlookup (connect st t2 u).send_queues u = some [] ∧
    dlookup (connect st t2 u).send_tasks u = some st.next_task ∧
    (connect st t2 u).tasks_cancelled = st.tasks_cancelled := by
  refine ⟨?_, ?_, ?_, rfl⟩ <;> simp [connect, dlookup_dinsert_self]

/-- C1, witness for the amended theorem at a concrete reconnect. -/
theorem C1_witness :
    dlookup (connect (connect initState 1 "u") 2 "u").active_connections "u" = some 2 ∧
    dlookup (connect (connect initState 1 "u") 2 "u").send_queues "u" = some [] ∧
    dlookup (connect (connect initState 1 "u") 2 "u").send_tasks "u" =
      some (connect initState 1 "u").next_task ∧
    (connect (connect initState 1 "u") 2 "u").tasks_cancelled =
      (connect initState 1 "u").tasks_cancelled :=
  C1_reconnect_overwrites (connect initState 1 "u") "u" 1 2 0 (by decide) (by decide)

/-- C2, counterexample: queues are created as unbounded `asyncio.Queue()`
with no capacity; enqueuing 3 messages after a fresh connect leaves all 3
queued, so with the claimed capacity C=2 the oldest is not evicted and
the queue does not hold only the 2 most recent messages. -/
theorem C2_counterexample :
    dlookup (send_personal_message (send_personal_message (send_personal_message
        (connect initState 1 "u") 10 "u") 11 "u") 12 "u").send_queues "u" =
      some [some 10, some 11, some 12] ∧
    dlookup (send_personal_message (send_personal_message (send_personal_message
        (connect initState 1 "u") 10 "u") 11 "u") 12 "u").send_queues "u" ≠
      some [some 11, some 12] := by
  decide

/-- C2, amended: enqueue is a non-blocking append to an unbounded queue;
no message is ever evicted.  Enqueuing 3 messages before any is drained
leaves exactly those 3 messages in the queue, oldest first. -/
theorem C2_unbounded_append (m1 m2 m3 : Msg) (u : String) (ws : Nat) :
    dlookup (send_personal_message (send_personal_message (send_personal_message
        (connect initState ws u) m1 u) m2 u) m3 u).send_queues u =
      some [some m1, some m2, some m3] := by
  have h0 : dlookup (connect initState ws u).send_queues u = some [] := by
    simp [connect, dlookup_dinsert_self]
  have h1 := sp_queue_append (connect initState ws u) m1 u [] h0
  have h2 := sp_queue_append _ m2 u _ h1
  have h3 := sp_queue_append _ m3 u _ h2
  simpa using h3

/-- C3: per-connection FIFO.  Enqueuing the sequence `ms` for a freshly
connected `u` leaves exactly `ms` in the queue in enqueue order, and the
delivery loop (with every transport write succeeding) delivers exactly
`ms` to the transport in that order — so `m1` enqueued before `m2` is
observed before `m2`, and no message is reordered or duplicated. -/
theorem C3_per_connection_fifo (ms : List Msg) (u : String) (ws : Nat) (st : MState) :
    dlookup (enqueue_all (connect st ws u) ms u).send_queues u = some (ms.map some) ∧
    (run_send_worker (fun _ => true) (enqueue_all (connect st ws u) ms u) u).2 = ms := by
  have h0 : dlookup (connect st ws u).send_queues u = some [] := by
    simp [connect, dlookup_dinsert_self]
  have hq := enqueue_all_queue ms (connect st ws u) u [] h0
  simp only [List.nil_append] at hq
  refine ⟨hq, ?_⟩
  have hact : dcontains (enqueue_all (connect st ws u) ms u).active_connections u
      = true := by
    rw [enqueue_all_active]
    simp [connect, dcontains, dlookup_dinsert_self]
  unfold run_send_worker
  rw [hq, hact]
  simp [drain_all_ok]

/-- C4: after `disconnect(u)` (or, more generally, whenever `u` has no
send queue) a `send_personal_message(m, u)` leaves the whole state
unchanged and raises nothing, for any behaviour of the queue put. -/
theorem C4_noop_after_disconnect (pf : String → Bool) (st stAfter : MState)
    (u : String) (m : Msg)
    (h : stAfter = disconnect st u ∨ dcontains stAfter.send_queues u = false) :
    send_personal_message_f pf stAfter m u = stAfter := by
  have hq : dcontains stAfter.send_queues u = false := by
    rcases h with rfl | h
    · simp [disconnect, dcontains, dlookup_derase_self]
    · exact h
  simp [send_personal_message_f, hq]

/-- C4, witness: sending to "u" right after disconnecting it is a no-op. -/
theorem C4_witness :
    send_personal_message_f (fun _ => false)
        (disconnect (connect initState 1 "u") "u") 5 "u" =
      disconnect (connect initState 1 "u") "u" :=
  C4_noop_after_disconnect (fun _ => false) (connect initState 1 "u")
    (disconnect (connect initState 1 "u") "u") "u" 5 (Or.inl rfl)

/-- C5: the subscription maps are symmetric — `u` appears under `T` in
the topic-to-subscribers map iff `T` appears under `u` in the
identity-to-topics map — and this invariant is preserved by every
sequence of subscribe/unsubscribe operations from a symmetric state. -/
theorem C5_subscription_symmetry (st : MState) (ops : List SubOp)
    (h : SubscriptionSymm st) : SubscriptionSymm (applySubOps st ops) := by
  induction ops generalizing st with
  | nil => exact h
  | cons op rest ih =>
      cases op with
      | sub u T => exact ih (subscribe_to_topic st u T) (symm_subscribe st u T h)
      | unsub u T => exact ih (unsubscribe_from_topic st u T) (symm_unsubscribe st u T h)

/-- C5, witness: symmetry holds after a concrete subscribe/unsubscribe
sequence from the (symmetric) initial state. -/
theorem C5_witness :
    SubscriptionSymm (applySubOps initState
      [SubOp.sub "u" "T", SubOp.sub "v" "T", SubOp.unsub "u" "T"]) :=
  C5_subscription_symmetry initState
    [SubOp.sub "u" "T", SubOp.sub "v" "T", SubOp.unsub "u" "T"]
    (by intro u T; simp [subscribersOf, topicsOf, initState, dlookup])

/-- C6: topic isolation — `broadcast_to_topic(m, T)` leaves the queue of
every identity outside `subscribersOf(T)` (at call time) unchanged, for
any per-user put failures, and when `T` has no subscriber entry the call
changes nothing at all. -/
theorem C6_topic_isolation (pf : String → Bool) (st : MState) (m : Msg)
    (T v : String) (hv : v ∉ subscribersOf st T) :
    dlookup (broadcast_to_topic_f pf st m T).send_queues v =
      dlookup st.send_queues v ∧
    (dcontains st.topic_subscribers T = false →
      broadcast_to_topic_f pf st m T = st) := by
  constructor
  · unfold broadcast_to_topic_f
    cases hc : dcontains st.topic_subscribers T with
    | false => simp [hc]
    | true =>
        rw [if_pos rfl]
        exact foldl_topic_queue_notmem pf m v _ st hv
  · intro hc
    simp [broadcast_to_topic_f, hc]

/-- C6, witness: with "a" subscribed to "T" and "b" unsubscribed, a topic
broadcast to "T" leaves "b"'s queue unchanged. -/
theorem C6_witness :
    dlookup (broadcast_to_topic_f (fun _ => false)
        (subscribe_to_topic (connect initState 1 "a") "a" "T") 5 "T").send_queues "b" =
      dlookup (subscribe_to_topic (connect initState 1 "a") "a" "T").send_queues "b" ∧
    (dcontains (subscribe_to_topic (connect initState 1 "a") "a" "T").topic_subscribers
        "T" = false →
      broadcast_to_topic_f (fun _ => false)
          (subscribe_to_topic (connect initState 1 "a") "a" "T") 5 "T" =
        subscribe_to_topic (connect initState 1 "a") "a" "T") :=
  C6_topic_isolation (fun _ => false)
    (subscribe_to_topic (connect initState 1 "a") "a" "T") 5 "T" "b" (by decide)

/-- C7: `broadcast(m)` dispatches over every Active connection; a put
failure for one connection is handled inside `send_personal_message`
(logged, that connection disconnected) and dispatch to every remaining
connection still happens: any active `u` whose own put succeeds receives
`m` appended to its mailbox, whatever failures other connections hit.
`broadcast_f` is a total function, so no per-connection error reaches
the broadcast caller. -/
theorem C7_broadcast_isolation (pf : String → Bool) (st : MState) (m : Msg)
    (u : String) (q : List (Option Msg))
    (hnd : (dkeys st.active_connections).Nodup)
    (hu : u ∈ dkeys st.active_connections)
    (hq : dlookup st.send_queues u = some q)
    (hpf : pf u = false) :
    dlookup (broadcast_f pf st m).send_queues u = some (q ++ [some m]) := by
  unfold broadcast_f
  exact foldl_sp_queue_mem pf m u (dkeys st.active_connections) st q hnd hu hq hpf

/-- C7, witness: "a" and "u" connected, dispatch to "a" fails, yet "u"
still receives the broadcast message. -/
theorem C7_witness :
    dlookup (broadcast_f (fun v => v == "a")
        (connect (connect initState 1 "a") 2 "u") 9).send_queues "u" =
      some ([] ++ [some 9]) :=
  C7_broadcast_isolation (fun v => v == "a")
    (connect (connect initState 1 "a") 2 "u") 9 "u" []
    (by decide) (by decide) (by decide) (by decide)

/-- C8, counterexample: `subscribe_to_topic` performs no validation at
all against `active_connections` — subscribing the never-connected
identity "u" from the initial state still updates both subscription
maps, contradicting the claim that the maps are modified only when the
identity has an Active connection. -/
theorem C8_counterexample :
    dcontains initState.active_connections "u" = false ∧
    subscribersOf (subscribe_to_topic initState "u" "T") "T" = ["u"] ∧
    topicsOf (subscribe_to_topic initState "u" "T") "u" = ["T"] := by
  decide

/-- C8, amended: `subscribe_to_topic` and `unsubscribe_from_topic` update
the subscription maps unconditionally — there is no Active-connection
validation, so the update happens for any state and any identity,
connected or not. -/
theorem C8_no_validation (st : MState) (u T : String) :
    subscribersOf (subscribe_to_topic st u T) T = sadd (subscribersOf st T) u ∧
    topicsOf (subscribe_to_topic st u T) u = sadd (topicsOf st u) T ∧
    subscribersOf (unsubscribe_from_topic st u T) T = sdiscard (subscribersOf st T) u ∧
    topicsOf (unsubscribe_from_topic st u T) u = sdiscard (topicsOf st u) T := by
  refine ⟨?_, ?_, ?_, ?_⟩
  · rw [subscribersOf_subscribe]
    simp
  · rw [topicsOf_subscribe]
    simp
  · rw [subscribersOf_unsubscribe]
    simp
  · rw [topicsOf_unsubscribe]
    simp

/-- C9, counterexample: with "u" connected and one queued message whose
transport write fails, the delivery loop stops delivering nothing — but
it signals nothing: "u" is still in `active_connections`, its task 0 is
still registered and was never cancelled, contradicting the claim that
the loop signals the owning connection for disconnection. -/
theorem C9_counterexample :
    (run_send_worker (fun _ => false)
        (send_personal_message (connect initState 1 "u") 7 "u") "u").2 = [] ∧
    dcontains (run_send_worker (fun _ => false)
        (send_personal_message (connect initState 1 "u") 7 "u")
        "u").1.active_connections "u" = true ∧
    dlookup (run_send_worker (fun _ => false)
        (send_personal_message (connect initState 1 "u") 7 "u") "u").1.send_tasks "u" =
      some 0 ∧
    (run_send_worker (fun _ => false)
        (send_personal_message (connect initState 1 "u") 7 "u") "u").1.tasks_cancelled =
      [] := by
  decide

/-- C9, amended: when a transport write fails, the delivery loop stops —
it delivers exactly the messages before the failing one and retries
neither the failed message nor any later one — but it does not signal
the owning connection for disconnection: the registry binding, the send
task and the cancellation record are all unchanged. -/
theorem C9_stop_no_disconnect (send_ok : Msg → Bool) (st : MState) (u : String)
    (q1 : List Msg) (m : Msg) (q2 : List (Option Msg))
    (hq : dlookup st.send_queues u = some (q1.map some ++ some m :: q2))
    (hok : ∀ x ∈ q1, send_ok x = true) (hm : send_ok m = false)
    (hact : dcontains st.active_connections u = true) :
    (run_send_worker send_ok st u).2 = q1 ∧
    (run_send_worker send_ok st u).1.active_connections = st.active_connections ∧
    (run_send_worker send_ok st u).1.send_tasks = st.send_tasks ∧
    (run_send_worker send_ok st u).1.tasks_cancelled = st.tasks_cancelled := by
  refine ⟨?_, (run_worker_registry send_ok st u).1,
    (run_worker_registry send_ok st u).2.1, (run_worker_registry send_ok st u).2.2.1⟩
  unfold run_send_worker
  rw [hq, hact]
  simp [drain_until_failure send_ok q1 m q2 hok hm]

/-- C9, witness: queue [1, 2, 3], write of 2 fails — only 1 is delivered
and the registry is untouched. -/
theorem C9_witness :
    (run_send_worker (fun x => x == 1)
        (send_personal_message (send_personal_message (send_personal_message
          (connect initState 1 "u") 1 "u") 2 "u") 3 "u") "u").2 = [1] ∧
    (run_send_worker (fun x => x == 1)
        (send_personal_message (send_personal_message (send_personal_message
          (connect initState 1 "u") 1 "u") 2 "u") 3 "u") "u").1.active_connections =
      (send_personal_message (send_personal_message (send_personal_message
        (connect initState 1 "u") 1 "u") 2 "u") 3 "u").active_connections ∧
    (run_send_worker (fun x => x == 1)
        (send_personal_message (send_personal_message (send_personal_message
          (connect initState 1 "u") 1 "u") 2 "u") 3 "u") "u").1.send_tasks =
      (send_personal_message (send_personal_message (send_personal_message
        (connect initState 1 "u") 1 "u") 2 "u") 3 "u").send_tasks ∧
    (run_send_worker (fun x => x == 1)
        (send_personal_message (send_personal_message (send_personal_message
          (connect initState 1 "u") 1 "u") 2 "u") 3 "u") "u").1.tasks_cancelled =
      (send_personal_message (send_personal_message (send_personal_message
        (connect initState 1 "u") 1 "u") 2 "u") 3 "u").tasks_cancelled :=
  C9_stop_no_disconnect (fun x => x == 1)
    (send_personal_message (send_personal_message (send_personal_message
      (connect initState 1 "u") 1 "u") 2 "u") 3 "u") "u"
    [1] 2 [some 3] (by decide) (by decide) (by decide) (by decide)

/-- C10: reconnecting an identity `u` currently subscribed to `T` resets
its topic set to empty while leaving `u` in the subscriber set of `T`,
so right after the reconnect `u` is in `subscribersOf(T)` but `T` is not
in `topicsOf(u)` — the symmetry invariant is broken by `connect`. -/
theorem C10_reconnect_breaks_symmetry (st : MState) (u T : String) (t : Nat)
    (hsub : u ∈ subscribersOf st T) :
    u ∈ subscribersOf (connect st t u) T ∧
    topicsOf (connect st t u) u = [] ∧
    T ∉ topicsOf (connect st t u) u := by
  have htop : topicsOf (connect st t u) u = [] := by
    simp [connect, topicsOf, dlookup_dinsert_self]
  refine ⟨hsub, htop, ?_⟩
  rw [htop]
  simp

/-- C10, witness: after subscribing the connected "u" to "T" and
reconnecting, "u" is still a subscriber of "T" but has an empty topic
set. -/
theorem C10_witness :
    "u" ∈ subscribersOf
        (connect (subscribe_to_topic (connect initState 1 "u") "u" "T") 2 "u") "T" ∧
    topicsOf (connect (subscribe_to_topic (connect initState 1 "u") "u" "T") 2 "u")
        "u" = [] ∧
    "T" ∉ topicsOf (connect (subscribe_to_topic (connect initState 1 "u") "u" "T")
        2 "u") "u" :=
  C10_reconnect_breaks_symmetry
    (subscribe_to_topic (connect initState 1 "u") "u" "T") "u" "T" 2 (by decide)

end ConnectionManager
